import Mathlib

/-!
Verification development for the slack-search-proxy server (src/server.js).

JavaScript strings are modelled as Lean `String` (a wrapper around
`List Char`); the JavaScript string primitives used by the server
(`trim`, `split`, `startsWith`, `slice`, `includes`, template literals,
`parseInt`, truthiness of strings) are given explicit Lean models below,
defined over the underlying character list.  Absent values (`undefined`)
are modelled with `Option`.  Wall-clock instants are modelled as `Nat`
(seconds) where arithmetic comparison matters (JWT expiry, Firestore
commit timestamps) and as opaque `String` values where only equality
matters (the ISO strings produced by `nowISO()`).
-/

namespace SlackProxy

/-- Characters treated as whitespace by the model of JavaScript
`String.prototype.trim` (the common cases; exotic Unicode whitespace is
not produced by any value in this system). -/
def isJsSpace (c : Char) : Bool :=
  c = ' ' || c = '\t' || c = '\n' || c = '\r'

/-- Right-trim of a character list: removes trailing JS whitespace. -/
def rtrimL : List Char → List Char
  | [] => []
  | c :: cs =>
    match rtrimL cs with
    | [] => if isJsSpace c then [] else [c]
    | r => c :: r

/-- Model of JavaScript `s.trim()` on the underlying character list. -/
def trimL (xs : List Char) : List Char :=
  rtrimL (xs.dropWhile isJsSpace)

/-- Model of JavaScript `s.trim()`. -/
def jsTrim (s : String) : String :=
  String.mk (trimL s.data)

/-- Split of a character list at every occurrence of the separator
character, mirroring JavaScript `s.split(sep)` for a one-character
separator: the result is always nonempty, and empty segments are kept. -/
def splitCh (sep : Char) : List Char → List (List Char)
  | [] => [[]]
  | x :: rest =>
    match splitCh sep rest with
    | [] => [[]]
    | h :: t => if x = sep then [] :: h :: t else (x :: h) :: t

/-- Join of character-list segments with a separator character
(the inverse of `splitCh`; JavaScript `parts.join(sep)`). -/
def joinCh (sep : Char) : List (List Char) → List Char
  | [] => []
  | [x] => x
  | x :: y :: rest => x ++ sep :: joinCh sep (y :: rest)

/-- Model of JavaScript `s.split(sep)` for a one-character separator. -/
def jsSplit (sep : Char) (s : String) : List String :=
  (splitCh sep s.data).map String.mk

/-- Model of JavaScript `parts.join(sep)`. -/
def jsJoin (sep : String) : List String → String
  | [] => ""
  | [x] => x
  | x :: y :: rest => x ++ sep ++ jsJoin sep (y :: rest)

/-- Character-list version of JavaScript `s.startsWith(p)`. -/
def leadsWith : List Char → List Char → Bool
  | [], _ => true
  | _ :: _, [] => false
  | p :: ps, x :: xs => p = x && leadsWith ps xs

/-- Model of JavaScript `s.startsWith(p)`. -/
def jsStartsWith (s p : String) : Bool :=
  leadsWith p.data s.data

/-- Model of JavaScript `s.slice(n)` (drop the first `n` characters). -/
def jsSlice (s : String) (n : Nat) : String :=
  String.mk (s.data.drop n)

/-- Containment of a contiguous character segment. -/
def hasSeg (sub : List Char) : List Char → Bool
  | [] => leadsWith sub []
  | x :: xs => leadsWith sub (x :: xs) || hasSeg sub xs

/-- Model of JavaScript `s.includes(sub)` (substring containment). -/
def jsIncludes (s sub : String) : Bool :=
  hasSeg sub.data s.data

/-- Model of the JavaScript expression `s || d` for strings delivered as
optional query/header values: `undefined`, `null` and the empty string
are falsy and give the default. -/
def jsOrStr (o : Option String) (d : String) : String :=
  match o with
  | none => d
  | some s => if s = "" then d else s

/-- Model of the JavaScript expression `n || d` for an integer `n`
(`0` and `NaN` are falsy; on `Int` only `0` is). -/
def jsOrInt (n : Int) (d : Int) : Int :=
  if n = 0 then d else n

/-- Little-endian decimal digits of a natural number, via an explicit
fuel argument so that the definition is structurally recursive (and
hence reducible by the kernel). `digitsLEFuel f n` is correct whenever
`n ≤ f`. -/
def digitsLEFuel : Nat → Nat → List Nat
  | 0, _ => []
  | f + 1, n => if n = 0 then [] else n % 10 :: digitsLEFuel f (n / 10)

/-- Little-endian decimal digits of a natural number (`[]` for 0). -/
def digitsLE (n : Nat) : List Nat :=
  digitsLEFuel n n

/-- The decimal digit character for a digit value below ten. -/
def digitChar10 (d : Nat) : Char :=
  match d with
  | 0 => '0' | 1 => '1' | 2 => '2' | 3 => '3' | 4 => '4'
  | 5 => '5' | 6 => '6' | 7 => '7' | 8 => '8' | 9 => '9'
  | _ => '*'

/-- Decimal string (as a character list) of a natural number. -/
def natChars (n : Nat) : List Char :=
  if n = 0 then ['0'] else ((digitsLE n).map digitChar10).reverse

/-- Parse a nonempty all-digit character list back to a natural number;
`none` on anything else. -/
def decodeNatChars (ds : List Char) : Option Nat :=
  if ds ≠ [] ∧ ds.all Char.isDigit then
    some (ds.foldl (fun a c => a * 10 + (c.toNat - 48)) 0)
  else none

/-! ### Session token codec (the jsonwebtoken library)

The server signs and verifies its bearer credentials with the external
`jsonwebtoken` library (`jwt.sign` / `jwt.verify`), whose code is not
part of this repository. -/

/-- The identity attached to a request by the auth middleware
(src/server.js lines 384-389): `{user_id, team_id, user, team}`. -/
structure Identity where
  user_id : String
  team_id : String
  user : String
  team : String
deriving DecidableEq, Repr

/-- The JWT payload minted by `/oauth/token` (src/server.js lines
357-364): the Slack user token plus the resolved identity fields. -/
structure JwtPayload where
  slack_user_token : String
  slack_user_id : String
  slack_team_id : String
  user : String
  team : String
deriving DecidableEq, Repr

/-- Modelled from the spec: a signed, time-limited credential produced
by the Session Token Codec ("opaque signed token carrying
{slack_user_token, identity, issued_at, expires_at}"; "the signing key
is an operator-supplied secret").  The `secret` field records which key
signed the token; verification against a secret succeeds exactly when
the two secrets coincide, which models signature checking. -/
structure SignedToken where
  payload : JwtPayload
  secret : String
  exp : Nat
deriving DecidableEq, Repr

/-- Separator character of the model's serialized token format.  Any
credential string that is not `encodeToken` of some token decodes to
`none` and is "structurally malformed". -/
def SEP : Char := '\x1f'

/-- Modelled from the spec: serialization of a signed token to the
opaque credential string handed to the client. -/
def encodeToken (t : SignedToken) : String :=
  String.mk (joinCh SEP
    [t.payload.slack_user_token.data, t.payload.slack_user_id.data,
     t.payload.slack_team_id.data, t.payload.user.data,
     t.payload.team.data, t.secret.data, natChars t.exp])

/-- Modelled from the spec: structural decoding of a credential string;
`none` on malformed input. -/
def decodeToken (s : String) : Option SignedToken :=
  match splitCh SEP s.data with
  | [a, b, c, d, e, f, g] =>
    match decodeNatChars g with
    | some n =>
      some ⟨⟨String.mk a, String.mk b, String.mk c, String.mk d, String.mk e⟩,
            String.mk f, n⟩
    | none => none
  | _ => none

/-- Token lifetime, src/server.js line 32: `60 * 60 * 24 * 7` seconds. -/
def TOKEN_TTL_SECONDS : Nat := 60 * 60 * 24 * 7

/-- Modelled from the spec: `jwt.verify(bearer, secret)` at clock `now`
— fails on structurally malformed input, on a signature made with a
different secret, and on an expired token; on success returns the
signed payload ("fails with InvalidCredentialError if the signature is
invalid, malformed, or the token has expired"). -/
def jwtVerify (bearer : String) (secret : String) (now : Nat) :
    Option JwtPayload :=
  match decodeToken bearer with
  | none => none
  | some t =>
    if t.secret = secret ∧ now < t.exp then some t.payload else none

/-- Modelled from the spec: `jwt.sign(payload, secret, {expiresIn})` at
clock `now`; the mint performed by `/oauth/token` step 5 (src/server.js
lines 357-367), with the payload fields taken from the source. -/
def mintAccessToken (secret : String) (userToken : String)
    (id : Identity) (now : Nat) : String :=
  encodeToken
    ⟨⟨userToken, id.user_id, id.team_id, id.user, id.team⟩,
     secret, now + TOKEN_TTL_SECONDS⟩

/-! ### Authenticated request gate (requireAuth, src/server.js 378-401) -/

/-- Outcome of the `requireAuth` middleware: either the request
proceeds carrying the embedded Slack user token and the identity, or
the middleware responds 401 `{error: "unauthorized"}` (a constant body
carrying no token) and stops. -/
inductive AuthOutcome where
  | ok (slackUserToken : String) (identity : Identity)
  | unauthorized
deriving DecidableEq, Repr

/-- The bearer string extracted from the Authorization header,
src/server.js lines 379-380: an absent header is read as `""`, and a
header not starting with `"Bearer "` yields the empty bearer. -/
def bearerOf (auth : Option String) : String :=
  let a := auth.getD ""
  if jsStartsWith a "Bearer " then jsSlice a 7 else ""

/-- The `requireAuth` middleware, src/server.js lines 378-401.  The
whole body runs inside one `try`: if `jwt.verify` throws the catch
returns 401; if verification succeeds the middleware refreshes the
in-memory and (when configured) remote last-seen records and calls
`next()` — but the awaited `redis.hset` sits inside the same `try`, so
a rejected update is also caught and turned into the 401 response.
`redisConfigured`/`redisHsetFails` model whether the remote registry is
configured and whether its update rejects. -/
def requireAuth (auth : Option String) (secret : String) (now : Nat)
    (redisConfigured redisHsetFails : Bool) : AuthOutcome :=
  match jwtVerify (bearerOf auth) secret now with
  | none => .unauthorized
  | some p =>
    if redisConfigured && redisHsetFails then .unauthorized
    else .ok p.slack_user_token ⟨p.slack_user_id, p.slack_team_id, p.user, p.team⟩

/-! ### File-backed usage ledger (GitHub CSV, src/server.js 71-202) -/

/-- One row of the usage table, as held in the `userStats` map of
`trackUserQuestion` (src/server.js lines 160-166). -/
structure Row where
  userName : String
  teamName : String
  userId : String
  teamId : String
  questions : Int
deriving DecidableEq, Repr

/-- Lookup in a JavaScript `Map` modelled as an association list
(first entry with the key wins; keys are unique by construction). -/
def mapGet {α : Type} (m : List (String × α)) (k : String) : Option α :=
  match m with
  | [] => none
  | p :: rest => if p.1 = k then some p.2 else mapGet rest k

/-- `Map.set` of a JavaScript `Map`: replaces the value at an existing
key in place (keeping its insertion position) and otherwise appends the
new entry at the end, matching JS Map insertion-order semantics. -/
def mapSet {α : Type} (m : List (String × α)) (k : String) (v : α) :
    List (String × α) :=
  match m with
  | [] => [(k, v)]
  | p :: rest => if p.1 = k then (k, v) :: rest else p :: mapSet rest k v

/-- Model of JavaScript `parseInt(s) || 0` applied to an
already-trimmed string: optional sign, then the longest leading digit
run; anything without digits (`NaN`) — and a parsed `0` — gives 0. -/
def jsParseIntOr0 (s : String) : Int :=
  let core : List Char → Int := fun xs =>
    let ds := xs.takeWhile Char.isDigit
    if ds = [] then 0
    else Int.ofNat (ds.foldl (fun a c => a * 10 + (c.toNat - 48)) 0)
  match s.data.dropWhile isJsSpace with
  | '-' :: rest => - core rest
  | '+' :: rest => core rest
  | xs => core xs

/-- Parsing of the CSV blob into the `userStats` map, src/server.js
lines 148-169: trim the content, split on newlines, sniff a header row
by the substrings `user_name`/`team_name`, then for each non-blank line
split on commas, trim the five fields (a missing field is JavaScript
`undefined`, which stringifies as "undefined" and parses as `NaN`), and
insert under the key `teamId:userId`.  `csvLineStep` is the body of
the per-line loop (lines 156-168). -/
def csvLineStep (m : List (String × Row)) (line : String) :
    List (String × Row) :=
  if jsTrim line ≠ "" then
    let parts := (jsSplit ',' line).map jsTrim
    let userName := parts.getD 0 "undefined"
    let teamName := parts.getD 1 "undefined"
    let userId := parts.getD 2 "undefined"
    let teamId := parts.getD 3 "undefined"
    let questions := jsParseIntOr0 (parts.getD 4 "undefined")
    mapSet m (teamId ++ ":" ++ userId)
      ⟨userName, teamName, userId, teamId, questions⟩
  else m

/-- Parsing of the full CSV blob (src/server.js lines 148-169); see
`csvLineStep`. -/
def parseCSV (content : String) : List (String × Row) :=
  let lines := jsSplit '\n' (jsTrim content)
  let first := lines.headD ""
  let hasHeader := jsIncludes first "user_name" || jsIncludes first "team_name"
  let dataLines := if hasHeader then lines.tail else lines
  dataLines.foldl csvLineStep []

/-- The map key used by `trackUserQuestion` for an identity,
src/server.js line 172: `` `${team_id}:${user_id}` ``. -/
def csvKey (id : Identity) : String :=
  id.team_id ++ ":" ++ id.user_id

/-- The sort of src/server.js line 190: JavaScript `Array.sort` with
comparator `(a, b) => b.questions - a.questions`, i.e. the stable sort
into descending question order; `List.insertionSort` is stable and so
realizes the same result. -/
def sortByQuestionsDesc (rows : List Row) : List Row :=
  List.insertionSort (fun a b => b.questions ≤ a.questions) rows

/-- One serialized CSV row, src/server.js line 191:
`` `${userName},${teamName},${userId},${teamId},${questions}` ``. -/
def rowString (r : Row) : String :=
  r.userName ++ "," ++ r.teamName ++ "," ++ r.userId ++ "," ++ r.teamId
    ++ "," ++ toString r.questions

/-- The fixed header line, src/server.js line 188 (with its trailing
newline, exactly as in the source string literal). -/
def csvHeader : String := "user_name,team_name,user_id,team_id,questions\n"

/-- Serialization of the row list, src/server.js lines 189-194 (values
of the map in insertion order, sorted, templated, joined). -/
def serializeCSV (rows : List Row) : String :=
  csvHeader ++ jsJoin "\n" (rows.map rowString)

/-- Result of `getFileFromGitHub` when the file exists: decoded content
plus the revision tag (`sha`) reported by the content store
(src/server.js lines 95-99; the base64 transport encoding, a bijection,
is elided). -/
structure GhFile where
  content : String
  sha : String
deriving DecidableEq, Repr

/-- The PUT request issued by `updateFileInGitHub` (src/server.js lines
106-138): target path, new content, and the optional `sha` field of the
body, which is included only when a truthy sha was supplied (line
115-117).  The commit message carries a wall-clock timestamp and is
elided. -/
structure GhPut where
  path : String
  content : String
  sha : Option String
deriving DecidableEq, Repr

/-- Path of the ledger file, src/server.js line 33. -/
def CSV_FILE_PATH : String := "usage_stats.csv"

/-- The body of `updateFileInGitHub(path, content, sha)`. -/
def updateFileInGitHub (path content : String) (sha : Option String) : GhPut :=
  { path := path, content := content,
    sha := match sha with
           | some s => if s = "" then none else some s
           | none => none }

/-- `trackUserQuestion(userIdentity)` (src/server.js lines 140-202),
as the PUT request it hands to `updateFileInGitHub`: read result in,
write request out.  A `none` file is the 404 case (absence is not an
error); an existing file is parsed only when its content is truthy
(non-empty, line 148); the row for the identity is incremented or
freshly inserted with `questions = 1`; the table is re-serialized
sorted descending and written back with the sha from the initial read. -/
def trackUserQuestion (file : Option GhFile) (id : Identity) : GhPut :=
  let stats :=
    match file with
    | some f => if f.content ≠ "" then parseCSV f.content else []
    | none => []
  let stats' :=
    match mapGet stats (csvKey id) with
    | some existing =>
      mapSet stats (csvKey id) { existing with questions := existing.questions + 1 }
    | none =>
      mapSet stats (csvKey id) ⟨id.user, id.team, id.user_id, id.team_id, 1⟩
  let newContent := serializeCSV (sortByQuestionsDesc (stats'.map (·.2)))
  updateFileInGitHub CSV_FILE_PATH newContent (file.map (·.sha))

/-! ### Document-backed usage ledger (Firestore, src/server.js 204-272) -/

/-- A `userStats` document (src/server.js lines 251-263).  Server-side
timestamps are modelled as the `Nat` commit time of the transaction. -/
structure Entry where
  userId : String
  userName : String
  firstName : String
  lastName : String
  teamId : String
  teamName : String
  questionCount : Int
  firstQuestionAt : Nat
  lastQuestionAt : Nat
  firstSeen : Nat
  lastSeen : Nat
deriving DecidableEq, Repr

/-- The name split of src/server.js lines 229-232:
`fullName = userIdentity.user || 'Unknown User'`, trimmed, split on
single spaces; `firstName = nameParts[0] || 'Unknown'`;
`lastName = nameParts.length > 1 ? nameParts.slice(1).join(' ') : ''`. -/
def nameSplit (user : String) : String × String :=
  let fullName := jsOrStr (some user) "Unknown User"
  let nameParts := jsSplit ' ' (jsTrim fullName)
  let firstName := jsOrStr (some (nameParts.headD "")) "Unknown"
  let lastName :=
    if nameParts.length > 1 then jsJoin " " nameParts.tail else ""
  (firstName, lastName)

/-- The division of a string at its first space, used to state what
the name split computes: the part strictly before the first space and
the part strictly after it (empty when there is no space). -/
def splitAtFirstSpace (s : String) : String × String :=
  (String.mk (s.data.takeWhile (· ≠ ' ')),
   String.mk ((s.data.dropWhile (· ≠ ' ')).drop 1))

/-- The transaction body of `updateUserStatsInFirebase` (src/server.js
lines 234-265), as the document value it commits for the key
`` `${team_id}_${user_id}` ``: an existing document gets
`questionCount: (questionCount || 0) + 1`, fresh name fields, and fresh
`lastQuestionAt`/`lastSeen`, its other fields untouched; an absent
document is created with `questionCount: 1` and all four timestamps at
the commit time. -/
def updateUserStatsInFirebase (current : Option Entry) (id : Identity)
    (commitTime : Nat) : Entry :=
  let fn := nameSplit id.user
  match current with
  | some currentData =>
    { currentData with
      questionCount := jsOrInt currentData.questionCount 0 + 1
      lastQuestionAt := commitTime
      userName := id.user
      firstName := fn.1
      lastName := fn.2
      teamName := id.team
      lastSeen := commitTime }
  | none =>
    { userId := id.user_id
      userName := id.user
      firstName := fn.1
      lastName := fn.2
      teamId := id.team_id
      teamName := id.team
      questionCount := 1
      firstQuestionAt := commitTime
      lastQuestionAt := commitTime
      firstSeen := commitTime
      lastSeen := commitTime }

/-! ### Presence registry (src/server.js 64-65 and 330-352) -/

/-- A presence record: `{connected_at, last_seen, team_id, team,
user_id, user}` (src/server.js line 65 / line 337).  Timestamps are the
opaque ISO strings produced by `nowISO()`. -/
structure PresRec where
  connected_at : String
  last_seen : String
  team_id : String
  team : String
  user_id : String
  user : String
deriving DecidableEq, Repr

/-- State of the remote key/value registry: one hash per user key plus
the `users:index` set of all keys.  (The optional 90-day expiry set on
the remote copy is retention metadata, not a record field, and is not
modelled.) -/
structure RedisState where
  hashes : List (String × PresRec)
  index : List String
deriving DecidableEq, Repr

/-- The redis key for an identity, src/server.js line 69:
`` `user:${team_id}:${user_id}` ``. -/
def redisKey (id : Identity) : String :=
  "user:" ++ id.team_id ++ ":" ++ id.user_id

/-- Steps 3-4 of `/oauth/token` (src/server.js lines 336-352): update
the in-memory `USERS` map — create the full record if the key is new,
else only refresh `last_seen` — and, when redis is configured, check
`exists` first, `hset` the full record only if absent, then
unconditionally `hset {last_seen}` and `sadd` the key into the index.
(The code's initial hset omits `last_seen`; the field is populated by
the unconditional second hset, so the net record is as modelled.)
`oauthMemUpdate` is step 3 (lines 336-340): create the full in-memory
record if the key is new, else only refresh `last_seen`. -/
def oauthMemUpdate (users : List (String × PresRec)) (id : Identity)
    (now : String) : List (String × PresRec) :=
  let key := id.team_id ++ ":" ++ id.user_id
  match mapGet users key with
  | none => mapSet users key ⟨now, now, id.team_id, id.team, id.user_id, id.user⟩
  | some r => mapSet users key { r with last_seen := now }

/-- The effect of `redis.hset(k, {last_seen: now})` on the hash map:
refresh the `last_seen` field of the existing hash.  (On an absent key
real redis would create a hash holding only that field; in the server
this call always follows creation of the full hash, so that path is
unreachable and modelled as a no-op.) -/
def hsetLastSeen (hashes : List (String × PresRec)) (kR : String)
    (now : String) : List (String × PresRec) :=
  match mapGet hashes kR with
  | some h => mapSet hashes kR { h with last_seen := now }
  | none => hashes

/-- Step 4 (src/server.js lines 343-352): `exists` check, conditional
full `hset`, unconditional `hset {last_seen}`, `sadd` into the index. -/
def oauthRedisUpdate (st : RedisState) (id : Identity) (now : String) :
    RedisState :=
  let kR := redisKey id
  let hashes1 :=
    match mapGet st.hashes kR with
    | none =>
      mapSet st.hashes kR ⟨now, now, id.team_id, id.team, id.user_id, id.user⟩
    | some _ => st.hashes
  let hashes2 := hsetLastSeen hashes1 kR now
  ⟨hashes2, if st.index.contains kR then st.index else st.index ++ [kR]⟩

/-- Steps 3-4 of `/oauth/token` together: the in-memory update always
runs; the redis update runs only when redis is configured. -/
def oauthRegistryStep (users : List (String × PresRec))
    (rds : Option RedisState) (id : Identity) (now : String) :
    List (String × PresRec) × Option RedisState :=
  (oauthMemUpdate users id now, rds.map (fun st => oauthRedisUpdate st id now))

/-! ### The search / thread endpoints (src/server.js 404-447) -/

/-- A response body: either an upstream JSON payload forwarded verbatim
(`res.json(resp)`) or one of the fixed error objects
`{error: <message>}`. -/
inductive Body where
  | upstream (resp : String)
  | error (msg : String)
deriving DecidableEq, Repr

/-- Environment of a request: configuration, clocks, upstream services
and the failure behaviour of each persistence backend.  Backends whose
failures the code catches without any observable branch
(`updateFileInGitHub`'s PUT, line 135-137) are carried as flags that
the model provably never reads. -/
structure ServerEnv where
  jwtSecret : String
  now : Nat
  redisConfigured : Bool
  redisHsetFails : Bool
  searchApi : String → String → String → String
  threadApi : String → String → String → String → String
  ghConfigured : Bool
  ghFile : Option GhFile
  ghReadFails : Bool
  ghWriteFails : Bool
  firestore : Option (Option Entry)
  fsTxFails : Bool
  commitTime : Nat

/-- `getFileFromGitHub` (src/server.js lines 72-104) as seen by
`trackUserQuestion`: `null` when unconfigured, on a 404, or when the
read fails (the catch at lines 100-103 also returns `null`). -/
def getFileResult (env : ServerEnv) : Option GhFile :=
  if env.ghConfigured && !env.ghReadFails then env.ghFile else none

/-- The CSV-ledger side effect of a search: the PUT request issued, or
`none` when GitHub is unconfigured (`updateFileInGitHub` returns
before any request, line 107).  A failing PUT (`ghWriteFails`) is
caught and logged inside `updateFileInGitHub`; the attempted request is
unchanged. -/
def csvEffect (env : ServerEnv) (id : Identity) : Option GhPut :=
  if env.ghConfigured then some (trackUserQuestion (getFileResult env) id)
  else none

/-- The document-ledger side effect of a search: the entry committed by
`trackUserActivityInFirebase` (src/server.js 205-220), or `none` when
Firestore is unconfigured or the transaction fails (both caught). -/
def firebaseEffect (env : ServerEnv) (id : Identity) : Option Entry :=
  match env.firestore with
  | none => none
  | some current =>
    if env.fsTxFails then none
    else some (updateUserStatsInFirebase current id env.commitTime)

/-- Observable outcome of a `/slack/search` request: HTTP status and
body plus the calls made to the upstream search API and the two
ledgers. -/
structure SearchTrace where
  status : Nat
  body : Body
  upstreamCalled : Bool
  csvPut : Option GhPut
  fbWrite : Option Entry
deriving Repr

/-- A `/slack/search` request (query-string parameters and the
Authorization header; absent values are `none`). -/
structure SearchReq where
  authorization : Option String
  q : Option String
  limit : Option String

/-- The `/slack/search` handler (src/server.js lines 404-431) behind
`requireAuth`: on auth failure the middleware's 401 is the response and
nothing else runs; otherwise the upstream search API is called with
`query = req.query.q || ""` and `count = String(req.query.limit || 50)`
and its response returned verbatim, while both ledger updates are fired
without letting their outcome touch the response. -/
def handleSearch (env : ServerEnv) (req : SearchReq) : SearchTrace :=
  match requireAuth req.authorization env.jwtSecret env.now
      env.redisConfigured env.redisHsetFails with
  | .unauthorized =>
    { status := 401, body := .error "unauthorized",
      upstreamCalled := false, csvPut := none, fbWrite := none }
  | .ok slackUserToken identity =>
    let q := jsOrStr req.q ""
    let count := jsOrStr req.limit "50"
    let resp := env.searchApi slackUserToken q count
    { status := 200, body := .upstream resp, upstreamCalled := true,
      csvPut := csvEffect env identity,
      fbWrite := firebaseEffect env identity }

/-- Observable outcome of a `/slack/thread` request. -/
structure ThreadTrace where
  status : Nat
  body : Body
  upstreamCalled : Bool
deriving Repr

/-- A `/slack/thread` request. -/
structure ThreadReq where
  authorization : Option String
  channel : Option String
  ts : Option String
  limit : Option String

/-- The `/slack/thread` handler (src/server.js lines 433-447) behind
`requireAuth`: after the gate, `if (!channel || !ts)` — i.e. if either
parameter is absent or empty — respond 400 `{error: "missing channel
or ts"}` without any upstream call; otherwise forward to the upstream
thread API with `limit = String(req.query.limit || 100)` and return its
response verbatim.  Thread retrieval updates no ledger. -/
def handleThread (env : ServerEnv) (req : ThreadReq) : ThreadTrace :=
  match requireAuth req.authorization env.jwtSecret env.now
      env.redisConfigured env.redisHsetFails with
  | .unauthorized =>
    { status := 401, body := .error "unauthorized", upstreamCalled := false }
  | .ok slackUserToken _ =>
    let channel := req.channel.getD ""
    let ts := req.ts.getD ""
    if channel = "" ∨ ts = "" then
      { status := 400, body := .error "missing channel or ts",
        upstreamCalled := false }
    else
      let limit := jsOrStr req.limit "100"
      { status := 200,
        body := .upstream (env.threadApi slackUserToken channel ts limit),
        upstreamCalled := true }

/-! ### Admin endpoints (src/server.js 449-501) -/

/-- Response of `/admin/users`. -/
inductive AdminResp where
  | unauthorized
  | usersList (users : List PresRec) (persistent : Bool)
deriving DecidableEq, Repr

/-- The shared-secret gate of both admin endpoints (src/server.js lines
451 and 468): reject unless `ADMIN_KEY` is truthy (an unset variable
defaults to `""`, line 17, and `""` is falsy) and the `x-admin-key`
header (read as `""` when absent) equals it. -/
def adminGatePasses (adminKey : String) (header : Option String) : Bool :=
  !(adminKey = "") && (header.getD "" = adminKey)

/-- The `/admin/users` handler (src/server.js lines 450-464): behind
the gate, list users from the redis index (persistent: true) when
configured, else from the in-memory map (persistent: false). -/
def adminUsersHandler (adminKey : String) (header : Option String)
    (rds : Option RedisState) (users : List (String × PresRec)) : AdminResp :=
  if !adminGatePasses adminKey header then .unauthorized
  else
    match rds with
    | some st => .usersList (st.index.filterMap (mapGet st.hashes)) true
    | none => .usersList (users.map (·.2)) false

/-- Response of `/debug/firebase`. -/
inductive DebugResp where
  | unauthorized
  | info (firebaseConfigured firestoreInitialized : Bool)
      (connectivityTestSucceeded : Option Bool)
deriving DecidableEq, Repr

/-- The `/debug/firebase` handler (src/server.js lines 467-501): behind
the same gate, report configuration flags and, when Firestore is
initialized, the outcome of a live write/delete probe. -/
def debugFirebaseHandler (adminKey : String) (header : Option String)
    (firebaseConfigured firestoreInitialized probeFails : Bool) : DebugResp :=
  if !adminGatePasses adminKey header then .unauthorized
  else .info firebaseConfigured firestoreInitialized
    (if firestoreInitialized then some (!probeFails) else none)

/-! ### Lemmas: character-list splitting and joining -/

theorem splitCh_ne_nil (sep : Char) (xs : List Char) : splitCh sep xs ≠ [] := by
  cases xs with
  | nil => simp [splitCh]
  | cons x rest =>
    simp only [splitCh]
    cases h : splitCh sep rest with
    | nil => simp
    | cons h t =>
      by_cases hx : x = sep <;> simp [hx]

theorem splitCh_of_not_mem {sep : Char} {xs : List Char} (h : sep ∉ xs) :
    splitCh sep xs = [xs] := by
  induction xs with
  | nil => rfl
  | cons x rest ih =>
    have hx : x ≠ sep := fun hh => h (hh ▸ List.mem_cons_self x rest)
    have hr : sep ∉ rest := fun hh => h (List.mem_cons_of_mem x hh)
    simp only [splitCh, ih hr]
    simp [fun hh : x = sep => hx hh]

theorem splitCh_append {sep : Char} {xs ys : List Char} (h : sep ∉ xs) :
    splitCh sep (xs ++ sep :: ys) = xs :: splitCh sep ys := by
  induction xs with
  | nil =>
    simp only [List.nil_append, splitCh]
    cases hs : splitCh sep ys with
    | nil => exact absurd hs (splitCh_ne_nil sep ys)
    | cons a t => simp
  | cons x rest ih =>
    have hx : x ≠ sep := fun hh => h (hh ▸ List.mem_cons_self x rest)
    have hr : sep ∉ rest := fun hh => h (List.mem_cons_of_mem x hh)
    simp only [List.cons_append, splitCh, ih hr]
    simp [fun hh : x = sep => hx hh]
    rw [ih hr]

theorem splitCh_joinCh {sep : Char} :
    ∀ {xss : List (List Char)}, xss ≠ [] → (∀ xs ∈ xss, sep ∉ xs) →
      splitCh sep (joinCh sep xss) = xss
  | [], h, _ => absurd rfl h
  | [x], _, hsep => by
    simp only [joinCh]
    exact splitCh_of_not_mem (hsep x (List.mem_singleton_self x))
  | x :: y :: rest, _, hsep => by
    simp only [joinCh]
    rw [splitCh_append (hsep x (List.mem_cons_self x _))]
    rw [splitCh_joinCh (List.cons_ne_nil y rest)
      (fun xs hxs => hsep xs (List.mem_cons_of_mem x hxs))]

/-! ### Lemmas: the decimal codec -/

/-- Value of a little-endian digit list. -/
def valLE : List Nat → Nat
  | [] => 0
  | d :: rest => d + 10 * valLE rest

theorem digitsLEFuel_lt_ten :
    ∀ (f n : Nat), ∀ d ∈ digitsLEFuel f n, d < 10 := by
  intro f
  induction f with
  | zero => intro n d hd; simp [digitsLEFuel] at hd
  | succ f ih =>
    intro n d hd
    simp only [digitsLEFuel] at hd
    by_cases hn : n = 0
    · simp [hn] at hd
    · simp only [if_neg hn, List.mem_cons] at hd
      rcases hd with hd | hd
      · exact hd ▸ Nat.mod_lt n (by decide)
      · exact ih (n / 10) d hd

theorem valLE_digitsLEFuel :
    ∀ (f n : Nat), n ≤ f → valLE (digitsLEFuel f n) = n := by
  intro f
  induction f with
  | zero => intro n hn; interval_cases n; rfl
  | succ f ih =>
    intro n hn
    simp only [digitsLEFuel]
    by_cases hz : n = 0
    · simp [hz, valLE]
    · have hdiv : n / 10 ≤ f := by
        have h1 : n / 10 < n := Nat.div_lt_self (Nat.pos_of_ne_zero hz) (by decide)
        omega
      simp only [if_neg hz, valLE, ih (n / 10) hdiv]
      exact Nat.mod_add_div n 10

theorem digitChar10_toNat {d : Nat} (h : d < 10) :
    (digitChar10 d).toNat - 48 = d := by
  interval_cases d <;> rfl

theorem digitChar10_isDigit {d : Nat} (h : d < 10) :
    (digitChar10 d).isDigit = true := by
  interval_cases d <;> rfl

theorem digitChar10_ne_SEP {d : Nat} (h : d < 10) : digitChar10 d ≠ SEP := by
  interval_cases d <;> decide

theorem foldr_digit_chars :
    ∀ (ds : List Nat), (∀ d ∈ ds, d < 10) →
      ds.foldr (fun d acc => acc * 10 + ((digitChar10 d).toNat - 48)) 0
        = valLE ds := by
  intro ds
  induction ds with
  | nil => intro _; rfl
  | cons d rest ih =>
    intro hds
    have hd : d < 10 := hds d (List.mem_cons_self d rest)
    have hrest : ∀ x ∈ rest, x < 10 := fun x hx => hds x (List.mem_cons_of_mem d hx)
    simp only [List.foldr_cons, ih hrest, valLE, digitChar10_toNat hd]
    omega

theorem decodeNatChars_natChars (n : Nat) :
    decodeNatChars (natChars n) = some n := by
  by_cases hz : n = 0
  · subst hz; decide
  · have hne : digitsLE n ≠ [] := by
      unfold digitsLE digitsLEFuel
      cases hf : n with
      | zero => exact absurd hf hz
      | succ m => simp [hz]
    have hlt : ∀ d ∈ digitsLE n, d < 10 := digitsLEFuel_lt_ten n n
    have hval : valLE (digitsLE n) = n := valLE_digitsLEFuel n n (Nat.le_refl n)
    have hchars : natChars n = ((digitsLE n).map digitChar10).reverse := by
      simp [natChars, hz]
    have hnil : ((digitsLE n).map digitChar10).reverse ≠ [] := by
      simp [hne]
    have hdig : (((digitsLE n).map digitChar10).reverse).all Char.isDigit = true := by
      rw [List.all_eq_true]
      intro c hc
      rw [List.mem_reverse, List.mem_map] at hc
      obtain ⟨d, hd, rfl⟩ := hc
      exact digitChar10_isDigit (hlt d hd)
    rw [hchars]
    unfold decodeNatChars
    rw [if_pos ⟨hnil, hdig⟩]
    rw [List.foldl_reverse]
    rw [List.foldr_map]
    rw [foldr_digit_chars (digitsLE n) hlt, hval]

theorem SEP_not_mem_natChars (n : Nat) : SEP ∉ natChars n := by
  intro hmem
  by_cases hz : n = 0
  · simp [natChars, hz] at hmem
    exact absurd hmem.symm (by decide : ('0' : Char) ≠ SEP)
  · simp only [natChars, if_neg hz, List.mem_reverse, List.mem_map] at hmem
    obtain ⟨d, hd, hc⟩ := hmem
    exact digitChar10_ne_SEP (digitsLEFuel_lt_ten n n d hd) hc

/-! ### Lemmas: the token codec round trip -/

/-- A string free of the model's serialization separator. -/
def NoSep (s : String) : Prop := SEP ∉ s.data

instance (s : String) : Decidable (NoSep s) := by
  unfold NoSep; infer_instance

theorem decodeToken_encodeToken {t : SignedToken}
    (h1 : NoSep t.payload.slack_user_token) (h2 : NoSep t.payload.slack_user_id)
    (h3 : NoSep t.payload.slack_team_id) (h4 : NoSep t.payload.user)
    (h5 : NoSep t.payload.team) (h6 : NoSep t.secret) :
    decodeToken (encodeToken t) = some t := by
  have hsplit : splitCh SEP (joinCh SEP
      [t.payload.slack_user_token.data, t.payload.slack_user_id.data,
       t.payload.slack_team_id.data, t.payload.user.data,
       t.payload.team.data, t.secret.data, natChars t.exp]) =
      [t.payload.slack_user_token.data, t.payload.slack_user_id.data,
       t.payload.slack_team_id.data, t.payload.user.data,
       t.payload.team.data, t.secret.data, natChars t.exp] := by
    apply splitCh_joinCh (by simp)
    intro xs hxs
    simp only [List.mem_cons, List.not_mem_nil, or_false] at hxs
    rcases hxs with rfl | rfl | rfl | rfl | rfl | rfl | rfl
    · exact h1
    · exact h2
    · exact h3
    · exact h4
    · exact h5
    · exact h6
    · exact SEP_not_mem_natChars t.exp
  unfold decodeToken encodeToken
  rw [show (String.mk (joinCh SEP _)).data = joinCh SEP _ from rfl, hsplit]
  simp only [decodeNatChars_natChars]

/-! ### Lemmas: the bearer extraction -/

theorem leadsWith_append (p r : List Char) : leadsWith p (p ++ r) = true := by
  induction p with
  | nil => rfl
  | cons x xs ih => simp [leadsWith, ih]

theorem bearerOf_bearer (m : String) :
    bearerOf (some ("Bearer " ++ m)) = m := by
  show (if leadsWith "Bearer ".data ("Bearer " ++ m).data = true
        then String.mk (("Bearer " ++ m).data.drop 7) else "") = m
  rw [show ("Bearer " ++ m).data = "Bearer ".data ++ m.data from rfl]
  rw [leadsWith_append]
  simp only [if_true]
  rw [show (7 : Nat) = "Bearer ".data.length from rfl, List.drop_left]

theorem jwtVerify_of_decode_none {bearer secret : String} {now : Nat}
    (hdec : decodeToken bearer = none) :
    jwtVerify bearer secret now = none := by
  unfold jwtVerify
  rw [hdec]

theorem jwtVerify_of_decode_some {bearer secret : String} {now : Nat}
    {t : SignedToken} (hdec : decodeToken bearer = some t) :
    jwtVerify bearer secret now =
      if t.secret = secret ∧ now < t.exp then some t.payload else none := by
  unfold jwtVerify
  rw [hdec]

theorem requireAuth_of_verify_none {auth : Option String} {secret : String}
    {now : Nat} {rc rf : Bool}
    (h : jwtVerify (bearerOf auth) secret now = none) :
    requireAuth auth secret now rc rf = .unauthorized := by
  unfold requireAuth
  rw [h]

theorem requireAuth_of_verify_some {auth : Option String} {secret : String}
    {now : Nat} {rc rf : Bool} {p : JwtPayload}
    (h : jwtVerify (bearerOf auth) secret now = some p) :
    requireAuth auth secret now rc rf =
      if rc && rf then .unauthorized
      else .ok p.slack_user_token
        ⟨p.slack_user_id, p.slack_team_id, p.user, p.team⟩ := by
  unfold requireAuth
  rw [h]

/-! ### Claim C1 -/

/-- Claim C1: for every identity (team_id, team, user_id, user) and
every Slack user token, a credential minted by the token endpoint's JWT
signing with the operator secret (src/server.js lines 357-367) and then
verified by the request gate (src/server.js lines 378-401) within the
7-day TTL yields back exactly the same identity fields and the same
Slack user token that were signed.  (Fields are required not to contain
the model's serialization separator; the presence-registry update is
taken to succeed, since its failure is a separate concern, settled with
claim C2.) -/
theorem C1_mint_then_verify_roundtrip
    (secret userToken : String) (id : Identity)
    (signTime verifyTime : Nat) (rc : Bool)
    (h1 : NoSep userToken) (h2 : NoSep id.user_id) (h3 : NoSep id.team_id)
    (h4 : NoSep id.user) (h5 : NoSep id.team) (h6 : NoSep secret)
    (hTtl : verifyTime < signTime + TOKEN_TTL_SECONDS) :
    requireAuth (some ("Bearer " ++ mintAccessToken secret userToken id signTime))
      secret verifyTime rc false = .ok userToken id := by
  have hdec : decodeToken (bearerOf (some ("Bearer " ++
      mintAccessToken secret userToken id signTime))) = some
      ⟨⟨userToken, id.user_id, id.team_id, id.user, id.team⟩,
       secret, signTime + TOKEN_TTL_SECONDS⟩ := by
    rw [bearerOf_bearer]
    exact decodeToken_encodeToken h1 h2 h3 h4 h5 h6
  rw [requireAuth_of_verify_some
    ((jwtVerify_of_decode_some hdec).trans (if_pos ⟨rfl, hTtl⟩))]
  simp

/-- Witness for C1 at a concrete identity, token, secret and clock. -/
theorem C1_mint_then_verify_roundtrip_witness :
    requireAuth
      (some ("Bearer " ++ mintAccessToken "hmac-secret" "xoxp-12345"
        ⟨"U777", "T42", "Ada Lovelace", "acme"⟩ 1000))
      "hmac-secret" 86400 false false =
      .ok "xoxp-12345" ⟨"U777", "T42", "Ada Lovelace", "acme"⟩ :=
  C1_mint_then_verify_roundtrip "hmac-secret" "xoxp-12345"
    ⟨"U777", "T42", "Ada Lovelace", "acme"⟩ 1000 86400 false
    (by decide) (by decide) (by decide) (by decide) (by decide) (by decide)
    (by decide)

/-! ### Claim C5 -/

/-- Claim C5: the request gate fails with the 401 unauthorized outcome
(whose response body is the constant `{error: "unauthorized"}`,
carrying no Slack token) whenever the credential is signed with a
secret different from the operator secret, or its expiry has passed, or
the input is structurally malformed — including an absent, empty, or
non-`"Bearer "`-prefixed Authorization header, all of which yield an
empty bearer that fails to decode; and it succeeds only on a
well-formed, unexpired credential signed with the operator secret. -/
theorem C5_verify_failure_modes
    (auth : Option String) (secret : String) (now : Nat) (rc : Bool) :
    (decodeToken (bearerOf auth) = none →
      requireAuth auth secret now rc false = .unauthorized)
    ∧ (∀ t, decodeToken (bearerOf auth) = some t → t.secret ≠ secret →
      requireAuth auth secret now rc false = .unauthorized)
    ∧ (∀ t, decodeToken (bearerOf auth) = some t → t.exp ≤ now →
      requireAuth auth secret now rc false = .unauthorized)
    ∧ (jsStartsWith (auth.getD "") "Bearer " = false →
      requireAuth auth secret now rc false = .unauthorized)
    ∧ (∀ tok id, requireAuth auth secret now rc false = .ok tok id →
      ∃ t, decodeToken (bearerOf auth) = some t ∧ t.secret = secret ∧
        now < t.exp ∧ tok = t.payload.slack_user_token ∧
        id = ⟨t.payload.slack_user_id, t.payload.slack_team_id,
              t.payload.user, t.payload.team⟩) := by
  refine ⟨?_, ?_, ?_, ?_, ?_⟩
  · intro hdec
    exact requireAuth_of_verify_none (jwtVerify_of_decode_none hdec)
  · intro t hdec hsec
    exact requireAuth_of_verify_none
      ((jwtVerify_of_decode_some hdec).trans (if_neg (fun hh => hsec hh.1)))
  · intro t hdec hexp
    exact requireAuth_of_verify_none
      ((jwtVerify_of_decode_some hdec).trans
        (if_neg (fun hh => absurd hh.2 (Nat.not_lt.mpr hexp))))
  · intro hpre
    have hb : bearerOf auth = "" := by
      show (if jsStartsWith (auth.getD "") "Bearer " = true
            then jsSlice (auth.getD "") 7 else "") = ""
      rw [hpre]
      simp
    have hv : jwtVerify (bearerOf auth) secret now = none := by
      rw [hb]
      exact jwtVerify_of_decode_none (by decide)
    exact requireAuth_of_verify_none hv
  · intro tok id hok
    cases hdec : decodeToken (bearerOf auth) with
    | none =>
      rw [requireAuth_of_verify_none (jwtVerify_of_decode_none hdec)] at hok
      exact absurd hok (by simp)
    | some t =>
      by_cases hcond : t.secret = secret ∧ now < t.exp
      · rw [requireAuth_of_verify_some
          ((jwtVerify_of_decode_some hdec).trans (if_pos hcond))] at hok
        simp only [Bool.and_false, Bool.false_eq_true, if_false,
          AuthOutcome.ok.injEq] at hok
        exact ⟨t, rfl, hcond.1, hcond.2, hok.1.symm, hok.2.symm⟩
      · rw [requireAuth_of_verify_none
          ((jwtVerify_of_decode_some hdec).trans (if_neg hcond))] at hok
        exact absurd hok (by simp)

/-- Witness for C5: a tampered-secret credential, an expired
credential, a malformed bearer, and an absent header are each
rejected. -/
theorem C5_verify_failure_modes_witness :
    requireAuth
      (some ("Bearer " ++ encodeToken
        ⟨⟨"xoxp-12345", "U777", "T42", "Ada", "acme"⟩, "wrong-secret", 999999⟩))
      "hmac-secret" 0 false false = .unauthorized
    ∧ requireAuth
      (some ("Bearer " ++ encodeToken
        ⟨⟨"xoxp-12345", "U777", "T42", "Ada", "acme"⟩, "hmac-secret", 10⟩))
      "hmac-secret" 10 false false = .unauthorized
    ∧ requireAuth (some "Bearer not-a-jwt") "hmac-secret" 0 false false
        = .unauthorized
    ∧ requireAuth none "hmac-secret" 0 false false = .unauthorized := by
  refine ⟨?_, ?_, ?_, ?_⟩
  · exact (C5_verify_failure_modes
      (some ("Bearer " ++ encodeToken
        ⟨⟨"xoxp-12345", "U777", "T42", "Ada", "acme"⟩, "wrong-secret", 999999⟩))
      "hmac-secret" 0 false).2.1
      ⟨⟨"xoxp-12345", "U777", "T42", "Ada", "acme"⟩, "wrong-secret", 999999⟩
      (by decide) (by decide)
  · exact (C5_verify_failure_modes
      (some ("Bearer " ++ encodeToken
        ⟨⟨"xoxp-12345", "U777", "T42", "Ada", "acme"⟩, "hmac-secret", 10⟩))
      "hmac-secret" 10 false).2.2.1
      ⟨⟨"xoxp-12345", "U777", "T42", "Ada", "acme"⟩, "hmac-secret", 10⟩
      (by decide) (by decide)
  · exact (C5_verify_failure_modes (some "Bearer not-a-jwt")
      "hmac-secret" 0 false).1 (by decide)
  · exact (C5_verify_failure_modes none "hmac-secret" 0 false).2.2.2.1 (by decide)

/-! ### Handler case lemmas -/

theorem handleSearch_of_unauthorized {env : ServerEnv} {req : SearchReq}
    (h : requireAuth req.authorization env.jwtSecret env.now
      env.redisConfigured env.redisHsetFails = .unauthorized) :
    handleSearch env req =
      { status := 401, body := .error "unauthorized",
        upstreamCalled := false, csvPut := none, fbWrite := none } := by
  unfold handleSearch
  rw [h]

theorem handleSearch_of_ok {env : ServerEnv} {req : SearchReq}
    {tok : String} {id : Identity}
    (h : requireAuth req.authorization env.jwtSecret env.now
      env.redisConfigured env.redisHsetFails = .ok tok id) :
    handleSearch env req =
      { status := 200,
        body := .upstream (env.searchApi tok (jsOrStr req.q "")
          (jsOrStr req.limit "50")),
        upstreamCalled := true, csvPut := csvEffect env id,
        fbWrite := firebaseEffect env id } := by
  unfold handleSearch
  rw [h]

theorem handleThread_of_ok {env : ServerEnv} {req : ThreadReq}
    {tok : String} {id : Identity}
    (h : requireAuth req.authorization env.jwtSecret env.now
      env.redisConfigured env.redisHsetFails = .ok tok id) :
    handleThread env req =
      if req.channel.getD "" = "" ∨ req.ts.getD "" = "" then
        { status := 400, body := .error "missing channel or ts",
          upstreamCalled := false }
      else
        { status := 200,
          body := .upstream (env.threadApi tok (req.channel.getD "")
            (req.ts.getD "") (jsOrStr req.limit "100")),
          upstreamCalled := true } := by
  unfold handleThread
  rw [h]

/-! ### Claim C6 -/

/-- Claim C6: a search request whose Authorization header is absent —
or whose credential fails verification — is answered 401 with the fixed
unauthorized body; the upstream search API is not called, neither
ledger is invoked, and no ledger write is issued. -/
theorem C6_unauthenticated_search_no_effects
    (env : ServerEnv) (req : SearchReq)
    (h : req.authorization = none ∨
      jwtVerify (bearerOf req.authorization) env.jwtSecret env.now = none) :
    (handleSearch env req).status = 401
    ∧ (handleSearch env req).body = .error "unauthorized"
    ∧ (handleSearch env req).upstreamCalled = false
    ∧ (handleSearch env req).csvPut = none
    ∧ (handleSearch env req).fbWrite = none := by
  have hv : jwtVerify (bearerOf req.authorization) env.jwtSecret env.now
      = none := by
    rcases h with h | h
    · rw [h]
      exact jwtVerify_of_decode_none (by decide)
    · exact h
  rw [handleSearch_of_unauthorized (requireAuth_of_verify_none hv)]
  exact ⟨rfl, rfl, rfl, rfl, rfl⟩

/-- Witness for C6: a search request with no Authorization header
against a fully configured environment. -/
theorem C6_unauthenticated_search_no_effects_witness :
    (handleSearch
      { jwtSecret := "hmac-secret", now := 0, redisConfigured := true,
        redisHsetFails := false,
        searchApi := fun _ _ _ => "search-results",
        threadApi := fun _ _ _ _ => "thread-results",
        ghConfigured := true, ghFile := none, ghReadFails := false,
        ghWriteFails := false, firestore := some none, fsTxFails := false,
        commitTime := 0 }
      { authorization := none, q := some "deploy", limit := none }).status = 401
    ∧ (handleSearch
      { jwtSecret := "hmac-secret", now := 0, redisConfigured := true,
        redisHsetFails := false,
        searchApi := fun _ _ _ => "search-results",
        threadApi := fun _ _ _ _ => "thread-results",
        ghConfigured := true, ghFile := none, ghReadFails := false,
        ghWriteFails := false, firestore := some none, fsTxFails := false,
        commitTime := 0 }
      { authorization := none, q := some "deploy", limit := none }).csvPut
        = none := by
  have h := C6_unauthenticated_search_no_effects
    { jwtSecret := "hmac-secret", now := 0, redisConfigured := true,
      redisHsetFails := false,
      searchApi := fun _ _ _ => "search-results",
      threadApi := fun _ _ _ _ => "thread-results",
      ghConfigured := true, ghFile := none, ghReadFails := false,
      ghWriteFails := false, firestore := some none, fsTxFails := false,
      commitTime := 0 }
    { authorization := none, q := some "deploy", limit := none }
    (Or.inl rfl)
  exact ⟨h.1, h.2.2.2.1⟩

/-! ### Claim C2 -/

/-- Counterexample to claim C2: a request carrying a credential that
verifies successfully (first conjunct) is nevertheless answered 401
with no upstream call when the presence registry's remote last-seen
update fails — because `requireAuth` awaits `redis.hset` inside the
same try/catch that produces the 401 (src/server.js lines 394-399), a
registry failure does change the HTTP response, contradicting the
claim that the authenticated search still succeeds. -/
theorem C2_counterexample_registry_failure
    : jwtVerify (bearerOf (some ("Bearer " ++ encodeToken
        ⟨⟨"xoxp-12345", "U777", "T42", "Ada", "acme"⟩, "hmac-secret", 999999⟩)))
        "hmac-secret" 0 =
        some ⟨"xoxp-12345", "U777", "T42", "Ada", "acme"⟩
    ∧ (handleSearch
      { jwtSecret := "hmac-secret", now := 0, redisConfigured := true,
        redisHsetFails := true,
        searchApi := fun _ _ _ => "search-results",
        threadApi := fun _ _ _ _ => "thread-results",
        ghConfigured := true, ghFile := none, ghReadFails := false,
        ghWriteFails := false, firestore := some none, fsTxFails := false,
        commitTime := 0 }
      { authorization := some ("Bearer " ++ encodeToken
          ⟨⟨"xoxp-12345", "U777", "T42", "Ada", "acme"⟩, "hmac-secret", 999999⟩),
        q := some "deploy", limit := none }).status = 401
    ∧ (handleSearch
      { jwtSecret := "hmac-secret", now := 0, redisConfigured := true,
        redisHsetFails := true,
        searchApi := fun _ _ _ => "search-results",
        threadApi := fun _ _ _ _ => "thread-results",
        ghConfigured := true, ghFile := none, ghReadFails := false,
        ghWriteFails := false, firestore := some none, fsTxFails := false,
        commitTime := 0 }
      { authorization := some ("Bearer " ++ encodeToken
          ⟨⟨"xoxp-12345", "U777", "T42", "Ada", "acme"⟩, "hmac-secret", 999999⟩),
        q := some "deploy", limit := none }).upstreamCalled = false := by
  decide

/-- Claim C2 (amended): for a request whose credential verifies and
whose presence-registry remote update does not fail (the gate passes),
failures of the file ledger's content-store read or write and of the
document ledger's transaction are caught and never change the HTTP
response: the search response is status 200 with the upstream payload,
whatever the values of `ghReadFails`, `ghWriteFails` and `fsTxFails` in
the environment.  (The unamended claim is refuted by the registry
counterexample: a failing remote last-seen update inside `requireAuth`
turns the request into a 401.) -/
theorem C2_ledger_failures_do_not_change_response
    (env : ServerEnv) (req : SearchReq) (tok : String) (id : Identity)
    (hok : requireAuth req.authorization env.jwtSecret env.now
      env.redisConfigured env.redisHsetFails = .ok tok id) :
    (handleSearch env req).status = 200
    ∧ (handleSearch env req).body =
        .upstream (env.searchApi tok (jsOrStr req.q "") (jsOrStr req.limit "50")) := by
  rw [handleSearch_of_ok hok]
  exact ⟨rfl, rfl⟩

/-- Witness for the amended C2, at an environment in which both the
file-ledger write and the document-ledger transaction fail. -/
theorem C2_ledger_failures_do_not_change_response_witness :
    (handleSearch
      { jwtSecret := "hmac-secret", now := 0, redisConfigured := true,
        redisHsetFails := false,
        searchApi := fun _ _ _ => "search-results",
        threadApi := fun _ _ _ _ => "thread-results",
        ghConfigured := true, ghFile := none, ghReadFails := true,
        ghWriteFails := true, firestore := some none, fsTxFails := true,
        commitTime := 0 }
      { authorization := some ("Bearer " ++ encodeToken
          ⟨⟨"xoxp-12345", "U777", "T42", "Ada", "acme"⟩, "hmac-secret", 999999⟩),
        q := some "deploy", limit := none }).status = 200 :=
  (C2_ledger_failures_do_not_change_response
    { jwtSecret := "hmac-secret", now := 0, redisConfigured := true,
      redisHsetFails := false,
      searchApi := fun _ _ _ => "search-results",
      threadApi := fun _ _ _ _ => "thread-results",
      ghConfigured := true, ghFile := none, ghReadFails := true,
      ghWriteFails := true, firestore := some none, fsTxFails := true,
      commitTime := 0 }
    { authorization := some ("Bearer " ++ encodeToken
        ⟨⟨"xoxp-12345", "U777", "T42", "Ada", "acme"⟩, "hmac-secret", 999999⟩),
      q := some "deploy", limit := none }
    "xoxp-12345" ⟨"U777", "T42", "Ada", "acme"⟩ (by decide)).1

/-! ### Claim C7 -/

/-- Counterexample to claim C7: an authenticated thread request (first
conjunct: the gate passes) in which both `channel` and `ts` are present
— `channel` is the empty string, as in `?channel=&ts=1` — is answered
400 with no upstream call, because the code tests JavaScript truthiness
(`!channel || !ts`, src/server.js line 437) rather than absence; the
claim says that when both are present the upstream response is returned
verbatim. -/
theorem C7_counterexample_empty_present_param
    : requireAuth (some ("Bearer " ++ encodeToken
        ⟨⟨"xoxp-12345", "U777", "T42", "Ada", "acme"⟩, "hmac-secret", 999999⟩))
        "hmac-secret" 0 false false =
        .ok "xoxp-12345" ⟨"U777", "T42", "Ada", "acme"⟩
    ∧ (handleThread
      { jwtSecret := "hmac-secret", now := 0, redisConfigured := false,
        redisHsetFails := false,
        searchApi := fun _ _ _ => "search-results",
        threadApi := fun _ _ _ _ => "thread-results",
        ghConfigured := false, ghFile := none, ghReadFails := false,
        ghWriteFails := false, firestore := none, fsTxFails := false,
        commitTime := 0 }
      { authorization := some ("Bearer " ++ encodeToken
          ⟨⟨"xoxp-12345", "U777", "T42", "Ada", "acme"⟩, "hmac-secret", 999999⟩),
        channel := some "", ts := some "1699.42", limit := none }).status = 400
    ∧ (handleThread
      { jwtSecret := "hmac-secret", now := 0, redisConfigured := false,
        redisHsetFails := false,
        searchApi := fun _ _ _ => "search-results",
        threadApi := fun _ _ _ _ => "thread-results",
        ghConfigured := false, ghFile := none, ghReadFails := false,
        ghWriteFails := false, firestore := none, fsTxFails := false,
        commitTime := 0 }
      { authorization := some ("Bearer " ++ encodeToken
          ⟨⟨"xoxp-12345", "U777", "T42", "Ada", "acme"⟩, "hmac-secret", 999999⟩),
        channel := some "", ts := some "1699.42", limit := none
        }).upstreamCalled = false := by
  decide

/-- Claim C7 (amended): for every authenticated thread request, if the
`ts` parameter or the `channel` parameter is absent — or present but
empty, which JavaScript truthiness treats identically — the response is
400 and no upstream thread-fetch call is issued; when both are present
and non-empty the upstream response is returned verbatim with status
200.  (The unamended claim fails on a present-but-empty parameter.) -/
theorem C7_thread_param_validation
    (env : ServerEnv) (req : ThreadReq) (tok : String) (id : Identity)
    (hok : requireAuth req.authorization env.jwtSecret env.now
      env.redisConfigured env.redisHsetFails = .ok tok id) :
    ((req.channel.getD "" = "" ∨ req.ts.getD "" = "") →
      (handleThread env req).status = 400
      ∧ (handleThread env req).body = .error "missing channel or ts"
      ∧ (handleThread env req).upstreamCalled = false)
    ∧ (∀ c t, req.channel = some c → c ≠ "" → req.ts = some t → t ≠ "" →
      (handleThread env req).status = 200
      ∧ (handleThread env req).body =
          .upstream (env.threadApi tok c t (jsOrStr req.limit "100"))
      ∧ (handleThread env req).upstreamCalled = true) := by
  rw [handleThread_of_ok hok]
  constructor
  · intro hmiss
    rw [if_pos hmiss]
    exact ⟨rfl, rfl, rfl⟩
  · intro c t hc hcne ht htne
    have hcond : ¬(req.channel.getD "" = "" ∨ req.ts.getD "" = "") := by
      rw [hc, ht]
      simp [hcne, htne]
    rw [if_neg hcond, hc, ht]
    exact ⟨rfl, rfl, rfl⟩

/-- Witness for the amended C7: a missing `ts` yields 400 with no
upstream call, and a complete request returns the upstream response. -/
theorem C7_thread_param_validation_witness :
    ((handleThread
      { jwtSecret := "hmac-secret", now := 0, redisConfigured := false,
        redisHsetFails := false,
        searchApi := fun _ _ _ => "search-results",
        threadApi := fun _ _ _ _ => "thread-results",
        ghConfigured := false, ghFile := none, ghReadFails := false,
        ghWriteFails := false, firestore := none, fsTxFails := false,
        commitTime := 0 }
      { authorization := some ("Bearer " ++ encodeToken
          ⟨⟨"xoxp-12345", "U777", "T42", "Ada", "acme"⟩, "hmac-secret", 999999⟩),
        channel := some "C123", ts := none, limit := none }).status = 400)
    ∧ ((handleThread
      { jwtSecret := "hmac-secret", now := 0, redisConfigured := false,
        redisHsetFails := false,
        searchApi := fun _ _ _ => "search-results",
        threadApi := fun _ _ _ _ => "thread-results",
        ghConfigured := false, ghFile := none, ghReadFails := false,
        ghWriteFails := false, firestore := none, fsTxFails := false,
        commitTime := 0 }
      { authorization := some ("Bearer " ++ encodeToken
          ⟨⟨"xoxp-12345", "U777", "T42", "Ada", "acme"⟩, "hmac-secret", 999999⟩),
        channel := some "C123", ts := some "1699.42", limit := none }).body =
        .upstream "thread-results") := by
  constructor
  · exact ((C7_thread_param_validation
      { jwtSecret := "hmac-secret", now := 0, redisConfigured := false,
        redisHsetFails := false,
        searchApi := fun _ _ _ => "search-results",
        threadApi := fun _ _ _ _ => "thread-results",
        ghConfigured := false, ghFile := none, ghReadFails := false,
        ghWriteFails := false, firestore := none, fsTxFails := false,
        commitTime := 0 }
      { authorization := some ("Bearer " ++ encodeToken
          ⟨⟨"xoxp-12345", "U777", "T42", "Ada", "acme"⟩, "hmac-secret", 999999⟩),
        channel := some "C123", ts := none, limit := none }
      "xoxp-12345" ⟨"U777", "T42", "Ada", "acme"⟩ (by decide)).1
      (Or.inr rfl)).1
  · exact ((C7_thread_param_validation
      { jwtSecret := "hmac-secret", now := 0, redisConfigured := false,
        redisHsetFails := false,
        searchApi := fun _ _ _ => "search-results",
        threadApi := fun _ _ _ _ => "thread-results",
        ghConfigured := false, ghFile := none, ghReadFails := false,
        ghWriteFails := false, firestore := none, fsTxFails := false,
        commitTime := 0 }
      { authorization := some ("Bearer " ++ encodeToken
          ⟨⟨"xoxp-12345", "U777", "T42", "Ada", "acme"⟩, "hmac-secret", 999999⟩),
        channel := some "C123", ts := some "1699.42", limit := none }
      "xoxp-12345" ⟨"U777", "T42", "Ada", "acme"⟩ (by decide)).2
      "C123" "1699.42" rfl (by decide) rfl (by decide)).2.1

/-! ### Lemmas: the association-list Map model -/

theorem mapGet_mapSet_self {α : Type} (m : List (String × α)) (k : String)
    (v : α) : mapGet (mapSet m k v) k = some v := by
  induction m with
  | nil => simp [mapSet, mapGet]
  | cons p rest ih =>
    by_cases hpk : p.1 = k
    · simp [mapSet, hpk, mapGet]
    · simp [mapSet, hpk, mapGet, ih]

theorem mapGet_mapSet_ne {α : Type} (m : List (String × α)) {k k' : String}
    (v : α) (hne : k' ≠ k) : mapGet (mapSet m k v) k' = mapGet m k' := by
  induction m with
  | nil =>
    show mapGet [(k, v)] k' = mapGet [] k'
    simp only [mapGet]
    rw [if_neg (fun h : k = k' => hne h.symm)]
  | cons p rest ih =>
    by_cases hpk : p.1 = k
    · simp only [mapSet, if_pos hpk, mapGet]
      rw [if_neg (fun h : k = k' => hne h.symm), if_neg (hpk ▸ fun h => hne h.symm)]
    · simp only [mapSet, if_neg hpk, mapGet]
      by_cases hpk' : p.1 = k'
      · rw [if_pos hpk', if_pos hpk']
      · rw [if_neg hpk', if_neg hpk', ih]

/-- Distinctness of the keys of the map model (JS `Map` keys are unique
by construction). -/
def nodupKeys {α : Type} (m : List (String × α)) : Prop :=
  (m.map (·.1)).Nodup

theorem mem_keys_mapSet {α : Type} {m : List (String × α)} {k x : String}
    {v : α} (h : x ∈ (mapSet m k v).map (·.1)) :
    x = k ∨ x ∈ m.map (·.1) := by
  induction m with
  | nil => simpa [mapSet] using h
  | cons p rest ih =>
    by_cases hpk : p.1 = k
    · simp only [mapSet, if_pos hpk, List.map_cons, List.mem_cons] at h
      rcases h with h | h
      · exact Or.inl h
      · exact Or.inr (by simp [h])
    · simp only [mapSet, if_neg hpk, List.map_cons, List.mem_cons] at h
      rcases h with h | h
      · exact Or.inr (by simp [h])
      · rcases ih h with h | h
        · exact Or.inl h
        · exact Or.inr (by simp [h])

theorem nodupKeys_mapSet {α : Type} {m : List (String × α)} (k : String)
    (v : α) (hnd : nodupKeys m) : nodupKeys (mapSet m k v) := by
  induction m with
  | nil => simp [mapSet, nodupKeys]
  | cons p rest ih =>
    rw [nodupKeys, List.map_cons, List.nodup_cons] at hnd
    obtain ⟨hp, hrest⟩ := hnd
    by_cases hpk : p.1 = k
    · rw [nodupKeys, mapSet, if_pos hpk, List.map_cons, List.nodup_cons]
      exact ⟨hpk ▸ hp, hrest⟩
    · rw [nodupKeys, mapSet, if_neg hpk, List.map_cons, List.nodup_cons]
      refine ⟨fun hmem => ?_, ih hrest⟩
      rcases mem_keys_mapSet hmem with h | h
      · exact hpk h
      · exact hp h

theorem mem_mapSet_iff {α : Type} {m : List (String × α)} {k : String}
    {v : α} (hnd : nodupKeys m) (e : String × α) :
    e ∈ mapSet m k v ↔ e = (k, v) ∨ (e ∈ m ∧ e.1 ≠ k) := by
  induction m with
  | nil => simp [mapSet]
  | cons p rest ih =>
    rw [nodupKeys, List.map_cons, List.nodup_cons] at hnd
    obtain ⟨hp, hrest⟩ := hnd
    by_cases hpk : p.1 = k
    · rw [mapSet, if_pos hpk]
      constructor
      · intro h
        rcases List.mem_cons.mp h with h | h
        · exact Or.inl h
        · refine Or.inr ⟨List.mem_cons_of_mem p h, fun hek => ?_⟩
          exact (hpk ▸ hp)
            (hek ▸ List.mem_map_of_mem (fun q : String × α => q.1) h)
      · intro h
        rcases h with h | ⟨hmem, hek⟩
        · exact h ▸ List.mem_cons_self _ _
        · rcases List.mem_cons.mp hmem with h | h
          · exact absurd (h ▸ hpk) hek
          · exact List.mem_cons_of_mem _ h
    · rw [mapSet, if_neg hpk]
      constructor
      · intro h
        rcases List.mem_cons.mp h with h | h
        · exact Or.inr ⟨h ▸ List.mem_cons_self p rest, h ▸ hpk⟩
        · rcases (ih hrest).mp h with h | ⟨hm, hek⟩
          · exact Or.inl h
          · exact Or.inr ⟨List.mem_cons_of_mem p hm, hek⟩
      · intro h
        rcases h with h | ⟨hmem, hek⟩
        · exact List.mem_cons_of_mem p ((ih hrest).mpr (Or.inl h))
        · rcases List.mem_cons.mp hmem with h | h
          · exact h ▸ List.mem_cons_self _ _
          · exact List.mem_cons_of_mem p ((ih hrest).mpr (Or.inr ⟨h, hek⟩))

theorem nodupKeys_csvLineStep {m : List (String × Row)} (line : String)
    (hnd : nodupKeys m) : nodupKeys (csvLineStep m line) := by
  unfold csvLineStep
  by_cases h : jsTrim line ≠ ""
  · rw [if_pos h]
    exact nodupKeys_mapSet _ _ hnd
  · rw [if_neg h]
    exact hnd

theorem nodupKeys_foldl_csvLineStep :
    ∀ (lines : List String) (m : List (String × Row)), nodupKeys m →
      nodupKeys (lines.foldl csvLineStep m) := by
  intro lines
  induction lines with
  | nil => intro m hm; exact hm
  | cons l rest ih =>
    intro m hm
    exact ih (csvLineStep m l) (nodupKeys_csvLineStep l hm)

theorem nodupKeys_parseCSV (content : String) : nodupKeys (parseCSV content) := by
  unfold parseCSV
  exact nodupKeys_foldl_csvLineStep _ [] (by simp [nodupKeys])

/-! ### Lemmas: the descending sort -/

instance : IsTotal Row (fun a b => b.questions ≤ a.questions) :=
  ⟨fun a b => le_total b.questions a.questions⟩

instance : IsTrans Row (fun a b => b.questions ≤ a.questions) :=
  ⟨fun _ _ _ hab hbc => le_trans hbc hab⟩

theorem sortByQuestionsDesc_sorted (rows : List Row) :
    List.Sorted (fun a b => b.questions ≤ a.questions)
      (sortByQuestionsDesc rows) :=
  List.sorted_insertionSort _ rows

theorem sortByQuestionsDesc_perm (rows : List Row) :
    (sortByQuestionsDesc rows).Perm rows :=
  List.perm_insertionSort _ rows

theorem trackUserQuestion_existing_eq {content sha : String} {id : Identity}
    {r0 : Row} (hc : content ≠ "")
    (hget : mapGet (parseCSV content) (csvKey id) = some r0) :
    trackUserQuestion (some ⟨content, sha⟩) id =
      updateFileInGitHub CSV_FILE_PATH
        (serializeCSV (sortByQuestionsDesc
          ((mapSet (parseCSV content) (csvKey id)
            { r0 with questions := r0.questions + 1 }).map (·.2))))
        (some sha) := by
  unfold trackUserQuestion
  simp only [hc, ne_eq, not_false_eq_true, if_true, hget]
  rfl

/-! ### Claim C3 -/

/-- Claim C3: for every file-ledger table containing a row for user U
with `questions = N` (hypothesis `hget`, with N = `r0.questions`) and
any other rows, `trackUserQuestion` for U writes back the table in
which U's row has `questions = N + 1`, every other entry is exactly an
entry of the original parse (same user_name, team_name, user_id,
team_id, questions), the rows are sorted descending by questions, and
the PUT carries exactly the revision tag (`sha`) obtained from the
initial read.  The GitHub revision tag is non-empty (`hsha`), as any
real sha is; the file content is non-empty (`hc`), as any table
containing a row is. -/
theorem C3_increment_existing_row (content sha : String) (id : Identity)
    (r0 : Row) (hc : content ≠ "") (hsha : sha ≠ "")
    (hget : mapGet (parseCSV content) (csvKey id) = some r0) :
    let stats := parseCSV content
    let r1 : Row := { r0 with questions := r0.questions + 1 }
    let stats' := mapSet stats (csvKey id) r1
    let out := trackUserQuestion (some ⟨content, sha⟩) id
    out.sha = some sha
    ∧ out.content = serializeCSV (sortByQuestionsDesc (stats'.map (·.2)))
    ∧ mapGet stats' (csvKey id) = some r1
    ∧ (∀ k', k' ≠ csvKey id → mapGet stats' k' = mapGet stats k')
    ∧ (∀ e, e ∈ stats' ↔ e = (csvKey id, r1) ∨ (e ∈ stats ∧ e.1 ≠ csvKey id))
    ∧ List.Sorted (fun a b => b.questions ≤ a.questions)
        (sortByQuestionsDesc (stats'.map (·.2)))
    ∧ (sortByQuestionsDesc (stats'.map (·.2))).Perm (stats'.map (·.2)) := by
  intro stats r1 stats' out
  refine ⟨?_, ?_, ?_, ?_, ?_, ?_, ?_⟩
  · rw [show out = _ from trackUserQuestion_existing_eq hc hget]
    unfold updateFileInGitHub
    simp [hsha]
  · rw [show out = _ from trackUserQuestion_existing_eq hc hget]
    rfl
  · exact mapGet_mapSet_self stats (csvKey id) r1
  · intro k' hk'
    exact mapGet_mapSet_ne stats r1 hk'
  · exact mem_mapSet_iff (nodupKeys_parseCSV content)
  · exact sortByQuestionsDesc_sorted _
  · exact sortByQuestionsDesc_perm _

/-- Witness for C3 at a concrete two-row table: Bob (1 question)
searches again; his row becomes 2 and the sha of the read is written
back. -/
theorem C3_increment_existing_row_witness :
    (trackUserQuestion
      (some ⟨"user_name,team_name,user_id,team_id,questions\nAlice,TeamA,U1,T1,2\nBob,TeamB,U2,T2,1",
             "abc123"⟩)
      ⟨"U2", "T2", "Bob", "TeamB"⟩).sha = some "abc123"
    ∧ mapGet (mapSet
        (parseCSV "user_name,team_name,user_id,team_id,questions\nAlice,TeamA,U1,T1,2\nBob,TeamB,U2,T2,1")
        (csvKey ⟨"U2", "T2", "Bob", "TeamB"⟩)
        ⟨"Bob", "TeamB", "U2", "T2", 2⟩)
        (csvKey ⟨"U2", "T2", "Bob", "TeamB"⟩) =
        some ⟨"Bob", "TeamB", "U2", "T2", 2⟩ := by
  have h := C3_increment_existing_row
    "user_name,team_name,user_id,team_id,questions\nAlice,TeamA,U1,T1,2\nBob,TeamB,U2,T2,1"
    "abc123" ⟨"U2", "T2", "Bob", "TeamB"⟩ ⟨"Bob", "TeamB", "U2", "T2", 1⟩
    (by decide) (by decide) (by decide)
  exact ⟨h.1, h.2.2.1⟩

/-! ### Claim C4 -/

/-- Claim C4: starting from an absent ledger file (a content-store 404
is not an error) or from an empty one, a single `trackUserQuestion`
call for an identity writes a table whose content is exactly the fixed
5-column header line followed by the one row for that identity with
`questions = 1`. -/
theorem C4_first_question_creates_single_row (id : Identity) :
    (trackUserQuestion none id).content =
      "user_name,team_name,user_id,team_id,questions\n" ++
        (id.user ++ "," ++ id.team ++ "," ++ id.user_id ++ "," ++ id.team_id
          ++ "," ++ "1")
    ∧ (∀ sha : String, (trackUserQuestion (some ⟨"", sha⟩) id).content =
      "user_name,team_name,user_id,team_id,questions\n" ++
        (id.user ++ "," ++ id.team ++ "," ++ id.user_id ++ "," ++ id.team_id
          ++ "," ++ "1")) :=
  ⟨rfl, fun _ => rfl⟩

/-! ### Lemmas: trimming and the first-space split -/

theorem rtrimL_head : ∀ {l : List Char} {y : Char} {ys : List Char},
    rtrimL l = y :: ys → l.head? = some y := by
  intro l
  induction l with
  | nil => intro y ys h; simp [rtrimL] at h
  | cons c cs ih =>
    intro y ys h
    unfold rtrimL at h
    cases hr : rtrimL cs with
    | nil =>
      rw [hr] at h
      by_cases hs : isJsSpace c
      · rw [if_pos hs] at h
        exact absurd h (by simp)
      · rw [if_neg hs] at h
        have hcy : c = y := by
          have h2 := congrArg List.head? h
          simpa using h2
        rw [hcy]
        rfl
    | cons r0 r1 =>
      rw [hr] at h
      have hcy : c = y := by
        have h2 := congrArg List.head? h
        simpa using h2
      rw [hcy]
      rfl

theorem trimL_head_not_space {xs : List Char} {y : Char} {ys : List Char}
    (h : trimL xs = y :: ys) : isJsSpace y = false := by
  unfold trimL at h
  have hh : (xs.dropWhile isJsSpace).head? = some y := rtrimL_head h
  have h2 := List.head?_dropWhile_not isJsSpace xs
  rw [hh] at h2
  exact h2

theorem head?_splitCh (c : Char) : ∀ xs : List Char,
    (splitCh c xs).head? = some (xs.takeWhile (fun a => a ≠ c)) := by
  intro xs
  induction xs with
  | nil => rfl
  | cons x rest ih =>
    cases hS : splitCh c rest with
    | nil => exact absurd hS (splitCh_ne_nil c rest)
    | cons h t =>
      rw [hS] at ih
      simp only [List.head?_cons, Option.some.injEq] at ih
      simp only [splitCh, hS]
      by_cases hx : x = c
      · subst hx
        simp [List.takeWhile_cons]
      · simp [hx, List.takeWhile_cons, ih]

theorem joinCh_cons_cons (c x : Char) (h : List Char) (t : List (List Char)) :
    joinCh c ((x :: h) :: t) = x :: joinCh c (h :: t) := by
  cases t with
  | nil => rfl
  | cons t0 t1 => simp [joinCh]

theorem splitCh_cons_self (c : Char) (rest : List Char) :
    splitCh c (c :: rest) = [] :: splitCh c rest := by
  cases hS : splitCh c rest with
  | nil => exact absurd hS (splitCh_ne_nil c rest)
  | cons h t => simp [splitCh, hS]

theorem splitCh_cons_ne {c x : Char} (rest : List Char) (hx : x ≠ c) :
    splitCh c (x :: rest) =
      (x :: (splitCh c rest).headD []) :: (splitCh c rest).tail := by
  cases hS : splitCh c rest with
  | nil => exact absurd hS (splitCh_ne_nil c rest)
  | cons h t => simp [splitCh, hS, hx]

theorem joinCh_splitCh (c : Char) : ∀ xs : List Char,
    joinCh c (splitCh c xs) = xs := by
  intro xs
  induction xs with
  | nil => rfl
  | cons x rest ih =>
    cases hS : splitCh c rest with
    | nil => exact absurd hS (splitCh_ne_nil c rest)
    | cons h t =>
      by_cases hx : x = c
      · subst hx
        rw [splitCh_cons_self, hS]
        show [] ++ x :: joinCh x (h :: t) = x :: rest
        rw [← hS, ih]
        rfl
      · rw [splitCh_cons_ne rest hx, hS, List.headD_cons, List.tail_cons,
          joinCh_cons_cons, ← hS, ih]

theorem joinCh_tail_splitCh (c : Char) : ∀ {xs : List Char}, c ∈ xs →
    joinCh c ((splitCh c xs).tail) = (xs.dropWhile (fun a => a ≠ c)).drop 1 := by
  intro xs
  induction xs with
  | nil => intro h; simp at h
  | cons x rest ih =>
    intro hmem
    by_cases hx : x = c
    · subst hx
      rw [splitCh_cons_self, List.tail_cons, joinCh_splitCh]
      simp [List.dropWhile_cons]
    · rw [splitCh_cons_ne rest hx, List.tail_cons]
      have hrest : c ∈ rest := by
        rcases List.mem_cons.mp hmem with h' | h'
        · exact absurd h'.symm hx
        · exact h'
      rw [ih hrest]
      simp [List.dropWhile_cons, hx]

theorem one_lt_length_splitCh (c : Char) : ∀ xs : List Char,
    1 < (splitCh c xs).length ↔ c ∈ xs := by
  intro xs
  induction xs with
  | nil => simp [splitCh]
  | cons x rest ih =>
    by_cases hx : x = c
    · subst hx
      rw [splitCh_cons_self]
      simp only [List.length_cons]
      have hpos : 0 < (splitCh x rest).length :=
        List.length_pos.mpr (splitCh_ne_nil x rest)
      constructor
      · intro _
        exact List.mem_cons_self x rest
      · intro _
        omega
    · rw [splitCh_cons_ne rest hx]
      simp only [List.length_cons, List.mem_cons]
      have htl : (splitCh c rest).tail.length + 1 = (splitCh c rest).length := by
        have := splitCh_ne_nil c rest
        cases hS : splitCh c rest with
        | nil => exact absurd hS this
        | cons h t => simp
      constructor
      · intro hl
        apply Or.inr
        apply ih.mp
        omega
      · intro hm
        rcases hm with hm | hm
        · exact absurd hm.symm hx
        · have := ih.mpr hm
          omega

theorem jsJoin_map_mk (sep : Char) : ∀ xss : List (List Char),
    jsJoin (String.mk [sep]) (xss.map String.mk) = String.mk (joinCh sep xss)
  | [] => rfl
  | [x] => rfl
  | x :: y :: rest => by
    show String.mk x ++ String.mk [sep] ++
        jsJoin (String.mk [sep]) ((y :: rest).map String.mk) =
      String.mk (x ++ sep :: joinCh sep (y :: rest))
    rw [jsJoin_map_mk sep (y :: rest)]
    apply String.ext
    show (x ++ [sep]) ++ joinCh sep (y :: rest) = x ++ sep :: joinCh sep (y :: rest)
    simp [List.append_assoc]

theorem mk_eq_empty_iff (l : List Char) : String.mk l = "" ↔ l = [] := by
  constructor
  · intro h
    have := congrArg String.data h
    simpa using this
  · intro h
    rw [h]

theorem jsOrStr_some (s d : String) :
    jsOrStr (some s) d = if s = "" then d else s := rfl

/-- The name split of `updateUserStatsInFirebase` computes exactly the
division of the trimmed display name at its first space, whenever the
trimmed display name is non-empty (so that neither JavaScript `||`
fallback fires). -/
theorem nameSplit_eq_splitAtFirstSpace (u : String) (hu : jsTrim u ≠ "") :
    nameSplit u = splitAtFirstSpace (jsTrim u) := by
  have hune : u ≠ "" := by
    intro h
    rw [h] at hu
    exact hu rfl
  obtain ⟨y, ys, hyys⟩ : ∃ y ys, (jsTrim u).data = y :: ys := by
    cases hd : (jsTrim u).data with
    | nil =>
      exfalso
      exact hu (String.ext hd)
    | cons a b => exact ⟨a, b, rfl⟩
  have hysp : isJsSpace y = false :=
    @trimL_head_not_space u.data y ys (by
      rw [show trimL u.data = (jsTrim u).data from rfl, hyys])
  have hyne : (decide (y ≠ ' ') : Bool) = true := by
    by_cases h : y = ' '
    · rw [h] at hysp
      simp [isJsSpace] at hysp
    · simp [h]
  obtain ⟨p0, ps, hp⟩ : ∃ p0 ps, splitCh ' ' (jsTrim u).data = p0 :: ps := by
    cases hS : splitCh ' ' (jsTrim u).data with
    | nil => exact absurd hS (splitCh_ne_nil _ _)
    | cons a b => exact ⟨a, b, rfl⟩
  have hp0 : p0 = (jsTrim u).data.takeWhile (fun a => a ≠ ' ') := by
    have := head?_splitCh ' ' (jsTrim u).data
    rw [hp] at this
    simpa using this
  have hp0ne : p0 ≠ [] := by
    rw [hp0, hyys, List.takeWhile_cons, if_pos (by simpa using hyne)]
    simp
  show (jsOrStr (some ((jsSplit ' '
          (jsTrim (jsOrStr (some u) "Unknown User"))).headD "")) "Unknown",
        if (jsSplit ' ' (jsTrim (jsOrStr (some u) "Unknown User"))).length > 1
        then jsJoin " "
          (jsSplit ' ' (jsTrim (jsOrStr (some u) "Unknown User"))).tail
        else "") =
      (String.mk ((jsTrim u).data.takeWhile (fun a => a ≠ ' ')),
       String.mk (((jsTrim u).data.dropWhile (fun a => a ≠ ' ')).drop 1))
  rw [jsOrStr_some u "Unknown User", if_neg hune]
  rw [show jsSplit ' ' (jsTrim u) = (splitCh ' ' (jsTrim u).data).map String.mk
    from rfl, hp]
  simp only [List.map_cons, List.headD_cons, List.tail_cons]
  rw [jsOrStr_some (String.mk p0) "Unknown",
    if_neg (fun h => hp0ne ((mk_eq_empty_iff p0).mp h))]
  by_cases hsp : ' ' ∈ (jsTrim u).data
  · have hlen : 1 < (String.mk p0 :: ps.map String.mk).length := by
      have := (one_lt_length_splitCh ' ' (jsTrim u).data).mpr hsp
      rw [hp] at this
      simpa using this
    rw [if_pos hlen]
    rw [show (" " : String) = String.mk [' '] from rfl, jsJoin_map_mk]
    have hjt := joinCh_tail_splitCh ' ' hsp
    rw [hp, List.tail_cons] at hjt
    rw [hjt, hp0]
  · have hlen : ¬ 1 < (String.mk p0 :: ps.map String.mk).length := by
      intro hcon
      apply hsp
      apply (one_lt_length_splitCh ' ' (jsTrim u).data).mp
      rw [hp]
      simpa using hcon
    rw [if_neg hlen]
    have hdw : (jsTrim u).data.dropWhile (fun a => a ≠ ' ') = [] := by
      rw [List.dropWhile_eq_nil_iff]
      intro x hx
      simp only [decide_eq_true_eq]
      intro hxsp
      exact hsp (hxsp ▸ hx)
    rw [hp0, hdw]
    rfl

theorem jsOrInt_zero (n : Int) : jsOrInt n 0 = n := by
  unfold jsOrInt
  by_cases h : n = 0
  · rw [if_pos h, h]
  · rw [if_neg h]

/-! ### Claim C8 -/

/-- Claim C8: for every existing document-ledger entry, the
transaction of `updateUserStatsInFirebase` increments `questionCount`
by exactly 1 and refreshes the "last" timestamp fields
(`lastQuestionAt`, `lastSeen`) to the commit time, leaving the "first"
fields (`firstQuestionAt`, `firstSeen`) unchanged; when no entry exists
it creates one with `questionCount = 1` and all four timestamps at the
commit time, with the display name split on the first space into
`firstName` and `lastName` (no space yields an empty `lastName`).  The
name-split clause is stated for identities whose trimmed display name
is non-empty, so that the JavaScript fallbacks to `"Unknown User"` /
`"Unknown"` do not fire. -/
theorem C8_document_entry_update (id : Identity) (now : Nat) :
    (∀ e : Entry,
      (updateUserStatsInFirebase (some e) id now).questionCount
          = e.questionCount + 1
      ∧ (updateUserStatsInFirebase (some e) id now).firstQuestionAt
          = e.firstQuestionAt
      ∧ (updateUserStatsInFirebase (some e) id now).firstSeen = e.firstSeen
      ∧ (updateUserStatsInFirebase (some e) id now).lastQuestionAt = now
      ∧ (updateUserStatsInFirebase (some e) id now).lastSeen = now)
    ∧ ((updateUserStatsInFirebase none id now).questionCount = 1
      ∧ (updateUserStatsInFirebase none id now).firstQuestionAt = now
      ∧ (updateUserStatsInFirebase none id now).lastQuestionAt = now
      ∧ (updateUserStatsInFirebase none id now).firstSeen = now
      ∧ (updateUserStatsInFirebase none id now).lastSeen = now)
    ∧ (jsTrim id.user ≠ "" →
      (updateUserStatsInFirebase none id now).firstName
          = (splitAtFirstSpace (jsTrim id.user)).1
      ∧ (updateUserStatsInFirebase none id now).lastName
          = (splitAtFirstSpace (jsTrim id.user)).2) := by
  refine ⟨fun e => ⟨?_, rfl, rfl, rfl, rfl⟩, ⟨rfl, rfl, rfl, rfl, rfl⟩, ?_⟩
  · show jsOrInt e.questionCount 0 + 1 = e.questionCount + 1
    rw [jsOrInt_zero]
  · intro hu
    constructor
    · show (nameSplit id.user).1 = (splitAtFirstSpace (jsTrim id.user)).1
      rw [nameSplit_eq_splitAtFirstSpace id.user hu]
    · show (nameSplit id.user).2 = (splitAtFirstSpace (jsTrim id.user)).2
      rw [nameSplit_eq_splitAtFirstSpace id.user hu]

/-- Witness for C8 at a concrete entry and identity ("Ada Lovelace",
split into "Ada" / "Lovelace"): increment and timestamp refresh on the
existing entry, creation fields on the fresh one. -/
theorem C8_document_entry_update_witness :
    (updateUserStatsInFirebase
      (some (⟨"U777", "Ada Lovelace", "Ada", "Lovelace", "T42", "acme",
        5, 11, 50, 10, 50⟩ : Entry))
      ⟨"U777", "T42", "Ada Lovelace", "acme"⟩ 99).questionCount = 6
    ∧ (updateUserStatsInFirebase
      (some (⟨"U777", "Ada Lovelace", "Ada", "Lovelace", "T42", "acme",
        5, 11, 50, 10, 50⟩ : Entry))
      ⟨"U777", "T42", "Ada Lovelace", "acme"⟩ 99).firstQuestionAt = 11
    ∧ (updateUserStatsInFirebase none
        ⟨"U777", "T42", "Ada Lovelace", "acme"⟩ 99).firstName
        = (splitAtFirstSpace (jsTrim "Ada Lovelace")).1 := by
  have h := C8_document_entry_update ⟨"U777", "T42", "Ada Lovelace", "acme"⟩ 99
  refine ⟨?_, ?_, ?_⟩
  · have h1 := (h.1 (⟨"U777", "Ada Lovelace", "Ada", "Lovelace", "T42", "acme",
      5, 11, 50, 10, 50⟩ : Entry)).1
    rw [h1]
    decide
  · exact (h.1 (⟨"U777", "Ada Lovelace", "Ada", "Lovelace", "T42", "acme",
      5, 11, 50, 10, 50⟩ : Entry)).2.1
  · exact (h.2.2 (by decide)).1

/-! ### Claim C9 -/

theorem oauthMemUpdate_of_get_some {users : List (String × PresRec)}
    {id : Identity} {now : String} {r : PresRec}
    (h : mapGet users (id.team_id ++ ":" ++ id.user_id) = some r) :
    oauthMemUpdate users id now =
      mapSet users (id.team_id ++ ":" ++ id.user_id)
        { r with last_seen := now } := by
  simp only [oauthMemUpdate]
  rw [h]

theorem oauthMemUpdate_of_get_none {users : List (String × PresRec)}
    {id : Identity} {now : String}
    (h : mapGet users (id.team_id ++ ":" ++ id.user_id) = none) :
    oauthMemUpdate users id now =
      mapSet users (id.team_id ++ ":" ++ id.user_id)
        ⟨now, now, id.team_id, id.team, id.user_id, id.user⟩ := by
  simp only [oauthMemUpdate]
  rw [h]

theorem oauthRedisUpdate_of_get_some {st : RedisState} {id : Identity}
    {now : String} {h0 : PresRec}
    (h : mapGet st.hashes (redisKey id) = some h0) :
    (oauthRedisUpdate st id now).hashes =
      mapSet st.hashes (redisKey id) { h0 with last_seen := now } := by
  simp only [oauthRedisUpdate]
  rw [h]
  show hsetLastSeen st.hashes (redisKey id) now = _
  unfold hsetLastSeen
  rw [h]

theorem oauthRedisUpdate_of_get_none {st : RedisState} {id : Identity}
    {now : String}
    (h : mapGet st.hashes (redisKey id) = none) :
    (oauthRedisUpdate st id now).hashes =
      mapSet (mapSet st.hashes (redisKey id)
          ⟨now, now, id.team_id, id.team, id.user_id, id.user⟩)
        (redisKey id)
        ⟨now, now, id.team_id, id.team, id.user_id, id.user⟩ := by
  simp only [oauthRedisUpdate]
  rw [h]
  show hsetLastSeen (mapSet st.hashes (redisKey id)
      ⟨now, now, id.team_id, id.team, id.user_id, id.user⟩)
    (redisKey id) now = _
  unfold hsetLastSeen
  rw [mapGet_mapSet_self]

/-- Claim C9: for every (team_id, user_id) key, the presence record's
`connected_at` field, once written, is never overwritten by a later
OAuth exchange for the same key: the token endpoint checks existence in
the in-process cache and (when configured) in the remote backend before
writing `connected_at`, and a reconnect rewrites only `last_seen` (all
other fields of the existing record, `connected_at` included, are
preserved); a new key gets `connected_at = last_seen = now`. -/
theorem C9_connected_at_never_overwritten (users : List (String × PresRec))
    (rds : Option RedisState) (id : Identity) (now : String) :
    (∀ r, mapGet users (id.team_id ++ ":" ++ id.user_id) = some r →
      mapGet (oauthRegistryStep users rds id now).1
          (id.team_id ++ ":" ++ id.user_id) = some { r with last_seen := now })
    ∧ (mapGet users (id.team_id ++ ":" ++ id.user_id) = none →
      mapGet (oauthRegistryStep users rds id now).1
          (id.team_id ++ ":" ++ id.user_id) =
        some ⟨now, now, id.team_id, id.team, id.user_id, id.user⟩)
    ∧ (∀ k', k' ≠ id.team_id ++ ":" ++ id.user_id →
      mapGet (oauthRegistryStep users rds id now).1 k' = mapGet users k')
    ∧ (∀ st h0, rds = some st → mapGet st.hashes (redisKey id) = some h0 →
      ∃ st', (oauthRegistryStep users rds id now).2 = some st'
        ∧ mapGet st'.hashes (redisKey id) = some { h0 with last_seen := now })
    ∧ (∀ st, rds = some st → mapGet st.hashes (redisKey id) = none →
      ∃ st', (oauthRegistryStep users rds id now).2 = some st'
        ∧ mapGet st'.hashes (redisKey id) =
            some ⟨now, now, id.team_id, id.team, id.user_id, id.user⟩) := by
  refine ⟨?_, ?_, ?_, ?_, ?_⟩
  · intro r hr
    show mapGet (oauthMemUpdate users id now) _ = _
    rw [oauthMemUpdate_of_get_some hr, mapGet_mapSet_self]
  · intro hr
    show mapGet (oauthMemUpdate users id now) _ = _
    rw [oauthMemUpdate_of_get_none hr, mapGet_mapSet_self]
  · intro k' hk'
    show mapGet (oauthMemUpdate users id now) k' = mapGet users k'
    cases hr : mapGet users (id.team_id ++ ":" ++ id.user_id) with
    | none => rw [oauthMemUpdate_of_get_none hr, mapGet_mapSet_ne _ _ hk']
    | some r => rw [oauthMemUpdate_of_get_some hr, mapGet_mapSet_ne _ _ hk']
  · intro st h0 hst hget
    subst hst
    refine ⟨oauthRedisUpdate st id now, rfl, ?_⟩
    rw [oauthRedisUpdate_of_get_some hget, mapGet_mapSet_self]
  · intro st hst hget
    subst hst
    refine ⟨oauthRedisUpdate st id now, rfl, ?_⟩
    rw [oauthRedisUpdate_of_get_none hget, mapGet_mapSet_self]

/-- Witness for C9: a reconnect for a known key keeps the original
`connected_at` value, and a fresh key in redis gets the full record. -/
theorem C9_connected_at_never_overwritten_witness :
    mapGet (oauthRegistryStep
        [("T42:U777", ⟨"2024-01-01", "2024-06-01", "T42", "acme", "U777", "Ada"⟩)]
        (some ⟨[], []⟩) ⟨"U777", "T42", "Ada", "acme"⟩ "2024-07-01").1
      "T42:U777" =
      some ⟨"2024-01-01", "2024-07-01", "T42", "acme", "U777", "Ada"⟩
    ∧ ∃ st', (oauthRegistryStep
        [("T42:U777", ⟨"2024-01-01", "2024-06-01", "T42", "acme", "U777", "Ada"⟩)]
        (some ⟨[], []⟩) ⟨"U777", "T42", "Ada", "acme"⟩ "2024-07-01").2 = some st'
      ∧ mapGet st'.hashes (redisKey ⟨"U777", "T42", "Ada", "acme"⟩) =
          some ⟨"2024-07-01", "2024-07-01", "T42", "acme", "U777", "Ada"⟩ := by
  have h := C9_connected_at_never_overwritten
    [("T42:U777", ⟨"2024-01-01", "2024-06-01", "T42", "acme", "U777", "Ada"⟩)]
    (some ⟨[], []⟩) ⟨"U777", "T42", "Ada", "acme"⟩ "2024-07-01"
  exact ⟨h.1 ⟨"2024-01-01", "2024-06-01", "T42", "acme", "U777", "Ada"⟩ rfl,
    h.2.2.2.2 ⟨[], []⟩ rfl rfl⟩

/-! ### Claim C10 -/

/-- Claim C10 (implicit): when the admin shared secret `ADMIN_KEY` is
unset (the destructuring default makes it `""`, src/server.js line 17)
or empty, both admin-gated endpoints — the admin listing and the
Firebase diagnostic probe — return 401 for every request, whatever
`x-admin-key` header is supplied; in particular a header equal to the
empty configured value is also rejected, so the admin surface is
unreachable rather than unprotected. -/
theorem C10_empty_admin_key_locks_out
    (header : Option String) (rds : Option RedisState)
    (users : List (String × PresRec))
    (fbConfigured fsInit probeFails : Bool) :
    adminUsersHandler "" header rds users = .unauthorized
    ∧ debugFirebaseHandler "" header fbConfigured fsInit probeFails
        = .unauthorized := by
  constructor
  · unfold adminUsersHandler adminGatePasses
    simp
  · unfold debugFirebaseHandler adminGatePasses
    simp

/-- Witness instance for C10's universal statement at the most
adversarial header, the one equal to the configured empty value. -/
theorem C10_empty_admin_key_locks_out_witness :
    adminUsersHandler "" (some "") (some ⟨[], []⟩) [] = .unauthorized
    ∧ debugFirebaseHandler "" (some "") true true false = .unauthorized :=
  C10_empty_admin_key_locks_out (some "") (some ⟨[], []⟩) [] true true false

end SlackProxy
